import Mathlib

/-!
Verification development for the market-analyzer core
(src/src/analyzer/market_analyzer.py).

The Python source is shallowly embedded: floats are idealised as exact
rationals (ℚ), with IEEE NaN modelled by `Option ℚ` (`none` = NaN) at the
places where pandas produces NaN (rolling windows shorter than the data),
dictionaries with optional keys become structures with `Option` fields,
and the external sentiment scorer (TextBlob) is a parameter
`tb : String → ℚ` of every function that calls it.
-/

namespace MarketAnalyzer

/-! ## Cache (`_get_from_cache`, `_store_in_cache`, `__init__`)

`datetime` values are modelled as rational numbers of seconds on an
absolute timeline.  A stored cache timestamp is either a datetime or a
string (the source tolerates both). -/

/-- A stored cache timestamp: either a datetime (seconds) or a string
that still has to be parsed with `strptime '%Y-%m-%d %H:%M:%S'`. -/
inductive CacheTime where
  | dt (t : ℚ)
  | str (s : String)
deriving DecidableEq

/-- Cache state of a `MarketAnalyzer` instance: the `data_cache` dict
(an association list key ↦ (timestamp, value)) and the `cache_expiry`
timedelta in seconds. -/
structure AnalyzerCache (α : Type) where
  data_cache : List (String × CacheTime × α)
  cache_expiry : ℚ

/-- The `cache_expiry` set in `__init__`: `timedelta(hours=1)`, one hour
in seconds. -/
def init_cache_expiry : ℚ := 3600

/-- The cache state right after `__init__`: empty dict, one-hour expiry. -/
def initCache (α : Type) : AnalyzerCache α :=
  { data_cache := [], cache_expiry := init_cache_expiry }

/-- Two-digit decimal field of a timestamp string. -/
def twoDigits (c₁ c₂ : Char) : Option ℕ :=
  if c₁.isDigit ∧ c₂.isDigit then
    some ((c₁.toNat - '0'.toNat) * 10 + (c₂.toNat - '0'.toNat))
  else none

/-- Day count of a civil date (proleptic Gregorian), the standard
days-from-civil computation; used to place parsed datetimes on the
absolute timeline. -/
def daysOfDate (y m d : ℕ) : ℤ :=
  let y' : ℤ := if m ≤ 2 then (y : ℤ) - 1 else (y : ℤ)
  let era : ℤ := y' / 400
  let yoe : ℤ := y' - era * 400
  let mp : ℤ := ((m : ℤ) + 9) % 12
  let doy : ℤ := (153 * mp + 2) / 5 + (d : ℤ) - 1
  let doe : ℤ := yoe * 365 + yoe / 4 - yoe / 100 + doy
  era * 146097 + doe

/-- Days in a month (Gregorian). -/
def daysInMonth (y m : ℕ) : ℕ :=
  if m = 2 then (if y % 4 = 0 ∧ (y % 100 ≠ 0 ∨ y % 400 = 0) then 29 else 28)
  else if m = 4 ∨ m = 6 ∨ m = 9 ∨ m = 11 then 30
  else 31

/-- Models `datetime.strptime(s, '%Y-%m-%d %H:%M:%S')` for the canonical
fixed-width form `YYYY-MM-DD HH:MM:SS` (the form the program itself
writes with `strftime`), returning seconds on the absolute timeline, or
`none` when the string does not parse (strptime raises `ValueError`). -/
def strptime (s : String) : Option ℚ :=
  match s.toList with
  | [y₁, y₂, y₃, y₄, '-', mo₁, mo₂, '-', d₁, d₂, ' ',
     h₁, h₂, ':', mi₁, mi₂, ':', s₁, s₂] =>
    if y₁.isDigit ∧ y₂.isDigit ∧ y₃.isDigit ∧ y₄.isDigit then
      let y := (y₁.toNat - '0'.toNat) * 1000 + (y₂.toNat - '0'.toNat) * 100 +
               (y₃.toNat - '0'.toNat) * 10 + (y₄.toNat - '0'.toNat)
      match twoDigits mo₁ mo₂, twoDigits d₁ d₂, twoDigits h₁ h₂,
            twoDigits mi₁ mi₂, twoDigits s₁ s₂ with
      | some mo, some d, some h, some mi, some sec =>
        if 1 ≤ mo ∧ mo ≤ 12 ∧ 1 ≤ d ∧ d ≤ daysInMonth y mo ∧
           h ≤ 23 ∧ mi ≤ 59 ∧ sec ≤ 59 then
          some ((daysOfDate y mo d : ℚ) * 86400 + h * 3600 + mi * 60 + sec)
        else none
      | _, _, _, _, _ => none
    else none
  | _ => none

/-- Resolves a stored cache timestamp to a point on the timeline:
a datetime stays as is; a string goes through `strptime`, an
unparseable string yielding `none` (the source returns `None` from the
`except ValueError` branch). -/
def resolveCacheTime : CacheTime → Option ℚ
  | .dt t => some t
  | .str s => strptime s

/-- Embeds `_get_from_cache` (src lines 54-66).  `now` models
`datetime.now()`.  Returns the cached value only when the key is
present, the stored timestamp resolves, and `now - cache_time <
cache_expiry`; every other case is a miss (`None`). -/
def _get_from_cache {α : Type} (self : AnalyzerCache α) (now : ℚ)
    (cache_key : String) : Option α :=
  match self.data_cache.lookup cache_key with
  | none => none
  | some (cache_time, cached_data) =>
    match resolveCacheTime cache_time with
    | none => none
    | some t => if now - t < self.cache_expiry then some cached_data else none

/-- Embeds `_store_in_cache` (src lines 68-70): stores `(now, data)`
under the key (overwriting any previous entry, as a dict assignment
does). -/
def _store_in_cache {α : Type} (self : AnalyzerCache α) (now : ℚ)
    (cache_key : String) (data : α) : AnalyzerCache α :=
  { self with
    data_cache := (cache_key, CacheTime.dt now, data) ::
      self.data_cache.filter (fun e => e.1 ≠ cache_key) }

/-! ## OHLCV data model

One row of a pandas OHLCV frame.  The frame index (a timestamp) is kept
as its `'%Y-%m-%d'`-formatted date string, the only form the analyzer
reads it in. -/

/-- One OHLCV row: the formatted index date plus the Open, High, Low,
Close, Volume columns. -/
structure OHLCVRow where
  date : String
  openPrice : ℚ
  high : ℚ
  low : ℚ
  close : ℚ
  volume : ℚ
deriving DecidableEq, Inhabited

/-- The `data` dict of timeframes built by `_get_historical_data`.
`none` models an absent key; `some []` models an empty DataFrame. -/
structure PriceData where
  today : Option (List OHLCVRow) := none
  week : Option (List OHLCVRow) := none
  month : Option (List OHLCVRow) := none
  year : Option (List OHLCVRow) := none

/-! ## Technical indicators (`_get_technical_analysis`)

pandas NaN is modelled by `Option ℚ` (`none` = NaN): a rolling window
over fewer rows than its size yields NaN, and every comparison against
NaN is `False` (IEEE semantics), which the helpers below reproduce. -/

/-- NaN-aware strict greater-than: `a > b` is `False` whenever either
side is NaN, as with IEEE floats. -/
def nanGT : Option ℚ → Option ℚ → Bool
  | some a, some b => a > b
  | _, _ => false

/-- NaN-aware strict less-than, `False` on NaN. -/
def nanLT : Option ℚ → Option ℚ → Bool
  | some a, some b => a < b
  | _, _ => false

/-- Last entry of `Series.rolling(window=w).mean()`: the mean of the
last `w` values, NaN (`none`) when fewer than `w` rows exist. -/
def rollingMeanLast (w : ℕ) (xs : List ℚ) : Option ℚ :=
  if xs.length < w ∨ w = 0 then none
  else some ((xs.drop (xs.length - w)).sum / (w : ℚ))

/-- Last entry of `Series.rolling(window=w).std()` reported as the
sample variance (pandas `std` uses `ddof=1`; the band comparisons below
consume the variance, the standard deviation being its square root).
NaN (`none`) when fewer than `w` rows exist. -/
def rollingVarLast (w : ℕ) (xs : List ℚ) : Option ℚ :=
  if xs.length < w ∨ w < 2 then none
  else
    let ys := xs.drop (xs.length - w)
    let m := ys.sum / (w : ℚ)
    some ((ys.map (fun y => (y - m) ^ 2)).sum / ((w : ℚ) - 1))

/-- `Series.diff()`: first entry NaN, then successive differences. -/
def seriesDiff (xs : List ℚ) : List (Option ℚ) :=
  none :: List.zipWith (fun a b => some (b - a)) xs xs.tail

/-- `delta.where(delta > 0, 0)` applied elementwise: a NaN delta fails
the comparison and is replaced by `0` as well. -/
def gainOf : Option ℚ → ℚ
  | some d => if d > 0 then d else 0
  | none => 0

/-- `-delta.where(delta < 0, 0)` applied elementwise. -/
def lossOf : Option ℚ → ℚ
  | some d => if d < 0 then -d else 0
  | none => 0

/-- Last RSI value (src lines 1216-1223): 14-window means of gains and
losses, `rs = gain/loss`, `RSI = 100 - 100/(1+rs)`.  The float special
cases are reproduced exactly: with `loss = 0`, `gain/0` is `inf` and
the formula collapses to `100`, unless `gain = 0` too, where `0/0` is
NaN and the RSI is NaN. -/
def rsiLast (closes : List ℚ) : Option ℚ :=
  let delta := seriesDiff closes
  match rollingMeanLast 14 (delta.map gainOf),
        rollingMeanLast 14 (delta.map lossOf) with
  | some gain, some loss =>
    if loss = 0 then (if gain = 0 then none else some 100)
    else some (100 - 100 / (1 + gain / loss))
  | _, _ => none

/-- `Series.ewm(span, adjust=False).mean()`: the full exponential
moving average series, `e₀ = x₀`, `eᵢ = α xᵢ + (1-α) eᵢ₋₁` with
`α = 2/(span+1)`. -/
def ewmSeries (span : ℕ) : List ℚ → List ℚ
  | [] => []
  | x :: xs =>
    let α : ℚ := 2 / ((span : ℚ) + 1)
    (xs.foldl (fun acc y => (α * y + (1 - α) * acc.headD 0) :: acc) [x]).reverse

/-- The `sma` sub-dict (src lines 1196-1210). -/
structure SMAOut where
  sma5 : Option ℚ
  sma10 : Option ℚ
  sma5_signal : String
  sma10_signal : String
  crossover : String
deriving DecidableEq

/-- The `bollinger` sub-dict (src lines 1250-1266).  `middle` is the
20-window mean and `variance` the 20-window sample variance; the upper
and lower bands of the source are `middle ± 2·√variance`. -/
structure BollingerOut where
  middle : Option ℚ
  variance : Option ℚ
  signal : String
deriving DecidableEq

/-- The `signals` aggregate dict (src lines 1271-1276). -/
structure Signals where
  sma : String
  rsi : String
  macd : String
  bollinger : String
deriving DecidableEq

/-- The full analysis dict built by `_get_technical_analysis` for a
series of at least 10 rows.  In this typed embedding none of the four
per-family `try` blocks can raise, so every family key is present;
insufficient history surfaces as NaN values (`none`), not as absence. -/
structure TechnicalAnalysis where
  sma : SMAOut
  rsi : Option ℚ
  rsi_signal : String
  macd : ℚ
  macd_signal : String
  macd_histogram : ℚ
  bollinger : BollingerOut
  signals : Signals
deriving DecidableEq

/-- Bollinger band signal (src line 1265): `sell` if the close is above
`middle + 2σ`, `buy` if below `middle - 2σ`, else `neutral`; NaN bands
(window of 20 not filled) compare `False` and give `neutral`.  With
`σ = √v ≥ 0`, `close > m + 2σ` is decided as
`close - m > 0 ∧ (close - m)² > 4·v`, and symmetrically below. -/
def bollingerSignalOf (close : ℚ) : Option ℚ → Option ℚ → String
  | some m, some v =>
    if close - m > 0 ∧ (close - m) ^ 2 > 4 * v then "sell"
    else if m - close > 0 ∧ (m - close) ^ 2 > 4 * v then "buy"
    else "neutral"
  | _, _ => "neutral"

/-- RSI signal (src line 1226): `sell` above 70, `buy` below 30, else
`neutral`; a NaN RSI fails both comparisons and is `neutral`. -/
def rsiSignalOf (rsi : Option ℚ) : String :=
  if nanGT rsi (some 70) then "sell"
  else if nanLT rsi (some 30) then "buy" else "neutral"

/-- The body of `_get_technical_analysis` once the guards have passed:
all four indicator families over the closing prices of `df`. -/
def technicalAnalysisBody (df : List OHLCVRow) : TechnicalAnalysis :=
  let closes := df.map (·.close)
  let last_close := closes.getLastD 0
  let last_sma5 := rollingMeanLast 5 closes
  let last_sma10 := rollingMeanLast 10 closes
  let sma : SMAOut :=
    { sma5 := last_sma5
      sma10 := last_sma10
      sma5_signal := if nanGT (some last_close) last_sma5 then "buy" else "sell"
      sma10_signal := if nanGT (some last_close) last_sma10 then "buy" else "sell"
      crossover := if nanGT last_sma5 last_sma10 then "bullish" else "bearish" }
  let last_rsi := rsiLast closes
  let macdSeries := List.zipWith (· - ·) (ewmSeries 12 closes) (ewmSeries 26 closes)
  let signalSeries := ewmSeries 9 macdSeries
  let last_macd := macdSeries.getLastD 0
  let last_signal := signalSeries.getLastD 0
  let sma20 := rollingMeanLast 20 closes
  let var20 := rollingVarLast 20 closes
  { sma := sma
    rsi := last_rsi
    rsi_signal := rsiSignalOf last_rsi
    macd := last_macd
    macd_signal := if last_macd > last_signal then "buy" else "sell"
    macd_histogram := last_macd - last_signal
    bollinger :=
      { middle := sma20
        variance := var20
        signal := bollingerSignalOf last_close sma20 var20 }
    signals :=
      { sma := sma.sma5_signal
        rsi := rsiSignalOf last_rsi
        macd := if last_macd > last_signal then "buy" else "sell"
        bollinger := bollingerSignalOf last_close sma20 var20 } }

/-- Embeds `_get_technical_analysis` (src lines 1181-1278).  An absent
or empty `week` series (which also covers a falsy `price_data`) or
fewer than 10 rows returns the empty dict, modelled as `none`; no
exception escapes. -/
def _get_technical_analysis (price_data : PriceData) : Option TechnicalAnalysis :=
  match price_data.week with
  | none => none
  | some df =>
    if df.isEmpty then none
    else if df.length < 10 then none
    else some (technicalAnalysisBody df)

/-! ## News sentiment / topic classifier (`analyze_news_impact`)

The TextBlob polarity scorer is an external collaborator and enters as
a parameter `tb : String → ℚ`. -/

/-- A raw news item (§3 News Item): a dict whose keys are all
optional; `title = some t` with `t ≠ ""` makes the item valid. -/
structure NewsItem where
  title : Option String := none
  summary : Option String := none
  source : Option String := none
  url : Option String := none
  timestamp : Option String := none
  sentiment : Option ℚ := none

/-- The `content` string of an item:
`f"{title} {summary}"` (src line 627). -/
def contentOf (item : NewsItem) : String :=
  item.title.getD "" ++ " " ++ item.summary.getD ""

/-- Per-item sentiment categorisation (src lines 634-642): `positive`
above `0.2`, `negative` below `-0.2`, `neutral` otherwise (both
boundary values included in `neutral`). -/
def sentimentCategoryOf (sentiment_score : ℚ) : String :=
  if sentiment_score > 1/5 then "positive"
  else if sentiment_score < -(1/5) then "negative"
  else "neutral"

/-- Characters matched by the regex class `[A-Za-z\-]` (on lowered
text). -/
def isTokenChar (c : Char) : Bool := c.isAlpha || c = '-'

/-- One maximal `[A-Za-z\-]` run turned into the regex match it
contains, if any: the match starts at the run's first letter, extends
greedily, and backtracks over trailing hyphens to end on a word
boundary; it must be at least 3 characters long.  `none` when the run
yields no match. -/
def tokenOfRun (run : List Char) : Option String :=
  let t := (run.dropWhile (· = '-')).reverse.dropWhile (· = '-') |>.reverse
  if 3 ≤ t.length then some (String.mk t) else none

/-- Models `re.findall(r'\b[A-Za-z][A-Za-z\-]{2,}\b', s.lower())` (src
line 645) for ASCII text free of digits and underscores (the only word
characters besides letters): matches are the maximal letter/hyphen
runs of the lowered text, stripped of leading and trailing hyphens, of
length at least 3. -/
def findWords (s : String) : List String :=
  (((s.toList.map Char.toLower).splitOnP (fun c => !isTokenChar c)).filterMap tokenOfRun)

/-- The fixed stop-word list of src lines 646-652. -/
def stopWords : List String :=
  ["this", "that", "these", "those", "there", "their", "they",
   "what", "when", "where", "which", "while", "with", "would",
   "about", "above", "after", "again", "against", "could", "should",
   "from", "have", "having", "here", "more", "once", "only", "same", "some",
   "such", "than", "then", "through"]

/-- The filtered word list of one item (src lines 645-652): tokens of
the lowered content that are longer than 3 characters and not stop
words. -/
def filteredWords (content : String) : List String :=
  (findWords content).filter (fun w => decide (3 < w.length) && !stopWords.contains w)

/-- One `Counter` update step: increment the word's count in place or
append a fresh entry, preserving first-encounter (insertion) order of
the keys. -/
def counterBump : List (String × ℕ) → String → List (String × ℕ)
  | [], w => [(w, 1)]
  | (k, n) :: rest, w =>
    if k = w then (k, n + 1) :: rest else (k, n) :: counterBump rest w

/-- `keyword_counter.update(words)`: successive bumps. -/
def counterUpdate (c : List (String × ℕ)) (ws : List String) : List (String × ℕ) :=
  ws.foldl counterBump c

/-- Stable insertion (after every entry of at least the same count)
into a list sorted by descending count. -/
def insertByCountDesc : List (String × ℕ) → (String × ℕ) → List (String × ℕ)
  | [], x => [x]
  | y :: ys, x => if x.2 ≤ y.2 then y :: insertByCountDesc ys x else x :: y :: ys

/-- `Counter.most_common(n)`: entries sorted by descending count —
stably, so that ties keep first-encounter order — truncated to `n`. -/
def mostCommon (c : List (String × ℕ)) (n : ℕ) : List (String × ℕ) :=
  (c.foldl insertByCountDesc []).take n

/-- Per-item record appended to `analysis['sentiments']` (src lines
664-672).  The `timestamp` default is `datetime.now()` formatted, which
enters as the `nowStr` parameter of `analyze_news_impact`. -/
structure SentimentRecord where
  title : String
  sentiment : ℚ
  sentiment_category : String
  source : String
  url : String
  timestamp : String
deriving DecidableEq

/-- The sentiment distribution counts. -/
structure SentimentDistribution where
  positive : ℕ
  negative : ℕ
  neutral : ℕ
deriving DecidableEq

/-- The news-analysis result structure.  The topic counters, entity
sets and per-source counters of the source are not modelled: no claim
concerns them. -/
structure NewsAnalysis where
  sentiments : List SentimentRecord
  keywords : List String
  average_sentiment : ℚ
  sentiment_distribution : SentimentDistribution
  sentiment_label : String
  news_items : List SentimentRecord

/-- Embeds `_get_empty_news_analysis` (src lines 719-731), restricted
to the modelled fields. -/
def _get_empty_news_analysis : NewsAnalysis :=
  { sentiments := []
    keywords := []
    average_sentiment := 0
    sentiment_distribution := { positive := 0, negative := 0, neutral := 0 }
    sentiment_label := "Neutral"
    news_items := [] }

/-- The items that survive the validity filter (src line 584):
item present with a non-empty title. -/
def validNewsItems (news_items : List NewsItem) : List NewsItem :=
  news_items.filter (fun item =>
    match item.title with
    | some t => t ≠ ""
    | none => false)

/-- The per-item sentiment record built in the loop body. -/
def sentimentRecordOf (tb : String → ℚ) (nowStr : String) (item : NewsItem) :
    SentimentRecord :=
  let content := contentOf item
  let sentiment_score := tb content
  { title := item.title.getD ""
    sentiment := sentiment_score
    sentiment_category := sentimentCategoryOf sentiment_score
    source := item.source.getD "Unknown"
    url := item.url.getD ""
    timestamp := item.timestamp.getD nowStr }

/-- Embeds `analyze_news_impact` (src lines 576-717) over the modelled
fields.  `tb` is the TextBlob polarity scorer; `nowStr` models
`datetime.now().strftime('%Y-%m-%d %H:%M:%S')`. -/
def analyze_news_impact (tb : String → ℚ) (nowStr : String)
    (news_items : List NewsItem) : NewsAnalysis :=
  let valid := validNewsItems news_items
  if valid.isEmpty then _get_empty_news_analysis
  else
    let records := valid.map (sentimentRecordOf tb nowStr)
    let keyword_counter :=
      counterUpdate [] (valid.flatMap (fun item => filteredWords (contentOf item)))
    let total_sentiment := (records.map (·.sentiment)).sum
    let average_sentiment := total_sentiment / (valid.length : ℚ)
    { sentiments := records
      keywords := (mostCommon keyword_counter 20).map Prod.fst
      average_sentiment := average_sentiment
      sentiment_distribution :=
        { positive := records.countP (fun r => r.sentiment_category = "positive")
          negative := records.countP (fun r => r.sentiment_category = "negative")
          neutral := records.countP (fun r => r.sentiment_category = "neutral") }
      sentiment_label :=
        if average_sentiment > 1/10 then "Positive"
        else if average_sentiment < -(1/10) then "Negative"
        else "Neutral"
      news_items :=
        records.foldl (fun acc r =>
          -- sorted(..., key=abs(sentiment), reverse=True) is a stable
          -- descending sort: each record goes after all at least as impactful
          (acc.takeWhile (fun q => |r.sentiment| ≤ |q.sentiment|)) ++
            r :: acc.dropWhile (fun q => |r.sentiment| ≤ |q.sentiment|)) [] }

/-! ## Price–news correlation engine (`compute_price_news_correlation`) -/

/-- The per-item dicts under the `'sentiments'` key of a news-analysis
argument (dict branch of the correlation engine): only the fields the
branch reads. -/
structure SentimentDictItem where
  timestamp : Option String := none
  sentiment : Option ℚ := none

/-- The `news_items` argument of `compute_price_news_correlation`:
`none` for Python `None`, a raw list of items, or a dict carrying a
`'sentiments'` key (the shape `analyze_news_impact` returns).  A dict
with the `'sentiments'` key is never empty, hence truthy. -/
inductive NewsArg where
  | noneArg
  | items (l : List NewsItem)
  | sentimentDict (sentiments : List SentimentDictItem)

/-- Python truthiness of the `news_items` argument: `None` and the
empty list are falsy; a dict with a `'sentiments'` key has at least one
key and is truthy. -/
def NewsArg.isFalsy : NewsArg → Bool
  | .noneArg => true
  | .items l => l.isEmpty
  | .sentimentDict _ => false

/-- Date extraction from a timestamp (src lines 437-447 and 471-481):
`timestamp.split(' ')[0]` when a space occurs (the characters before
the first space), else `timestamp.split('T')[0]`, else the first 10
characters; results shorter than 10 characters are discarded. -/
def extractDate (timestamp : String) : Option String :=
  let cs := timestamp.toList
  let date_str :=
    if cs.contains ' ' then cs.takeWhile (· ≠ ' ')
    else if cs.contains 'T' then cs.takeWhile (· ≠ 'T')
    else cs.take 10
  if date_str.length < 10 then none else some (String.mk date_str)

/-- The `(date, sentiment)` pairs the news-grouping loops extract, in
item order; items without a usable timestamp or date are skipped.
Dict branch: `item.get('sentiment', 0)`.  Raw branch: the item's
`sentiment` if the key is present, else the TextBlob polarity of
`f"{title} {summary}"` (src lines 489-498). -/
def newsDateSentiments (tb : String → ℚ) : NewsArg → List (String × ℚ)
  | .noneArg => []
  | .sentimentDict s =>
    s.filterMap (fun item =>
      match item.timestamp with
      | none => none
      | some ts => (extractDate ts).map (fun d => (d, item.sentiment.getD 0)))
  | .items l =>
    l.filterMap (fun item =>
      match item.timestamp with
      | none => none
      | some ts => (extractDate ts).map (fun d =>
          (d, match item.sentiment with
              | some sent => sent
              | none => tb (item.title.getD "" ++ " " ++ item.summary.getD ""))))

/-- Per-date news counts, the content of one `news_by_date[date_str]`
entry: each extracted pair with this date bumps `total` and exactly one
of the buckets, `negative` below `-0.1`, `positive` above `0.1`,
`neutral` otherwise (src lines 454-462 and 486-505). -/
structure NewsCounts where
  total : ℕ
  negative : ℕ
  neutral : ℕ
  positive : ℕ
deriving DecidableEq

/-- The counts `news_by_date.get(date, zeros)` resolves to. -/
def newsCountsFor (pairs : List (String × ℚ)) (date : String) : NewsCounts :=
  let here := pairs.filter (fun p => p.1 = date)
  { total := here.length
    negative := here.countP (fun p => p.2 < -(1/10))
    positive := here.countP (fun p => p.2 > 1/10)
    neutral := here.countP (fun p => ¬(p.2 < -(1/10)) ∧ ¬(p.2 > 1/10)) }

/-- One row of `correlation_data` (src lines 522-529). -/
structure CorrelationRow where
  date : String
  price : ℚ
  total_news : ℕ
  negative_news : ℕ
  neutral_news : ℕ
  positive_news : ℕ
deriving DecidableEq

/-- The float `numerator / (denom_price * denom_news) ** 0.5` (and the
`np.corrcoef` value, of the same shape) kept exactly: the represented
coefficient is `num / √den2`. -/
structure CorrVal where
  num : ℚ
  den2 : ℚ
deriving DecidableEq

/-- Mean of a rational list (`sum(l)/len(l)`). -/
def listMean (l : List ℚ) : ℚ := l.sum / (l.length : ℚ)

/-- `sum((p - mean_price) ** 2 for p in prices)`. -/
def denomPrice (prices : List ℚ) : ℚ :=
  (prices.map (fun p => (p - listMean prices) ^ 2)).sum

/-- `sum((n - mean_news) ** 2 for n in neg_news_counts)`. -/
def denomNews (neg_news_counts : List ℕ) : ℚ :=
  let l := neg_news_counts.map (fun n => (n : ℚ))
  (l.map (fun n => (n - listMean l) ^ 2)).sum

/-- `sum((prices[i] - mean_price) * (neg_news_counts[i] - mean_news))`. -/
def corrNumerator (prices : List ℚ) (neg_news_counts : List ℕ) : ℚ :=
  let l := neg_news_counts.map (fun n => (n : ℚ))
  (List.zipWith (fun p n => (p - listMean prices) * (n - listMean l)) prices l).sum

/-- The manual Pearson fallback (src lines 548-559), reached when the
primary routine raises: `none` (the coefficient stays null) unless both
centered-sum denominators are strictly positive. -/
def fallbackPearson (prices : List ℚ) (neg_news_counts : List ℕ) : Option CorrVal :=
  if prices.length = neg_news_counts.length ∧ 0 < prices.length then
    if 0 < denomPrice prices ∧ 0 < denomNews neg_news_counts then
      some { num := corrNumerator prices neg_news_counts
             den2 := denomPrice prices * denomNews neg_news_counts }
    else none
  else none

/-- The coefficient computation of src lines 534-544: only with at
least 2 price points, more than one distinct price
(`len(set(prices)) > 1`) and a nonzero negative-news total is
`np.corrcoef` consulted; its value is `num / √(d₁·d₂)` over the
centered sums, NaN exactly when `d₁·d₂ = 0`, and a NaN is coerced
to `0` (represented `⟨0, 1⟩`). -/
def correlationCoefficient (prices : List ℚ) (neg_news_counts : List ℕ) :
    Option CorrVal :=
  if 2 ≤ prices.length then
    if 1 < prices.dedup.length ∧ 0 < neg_news_counts.sum then
      if denomPrice prices = 0 ∨ denomNews neg_news_counts = 0 then
        some { num := 0, den2 := 1 }
      else
        some { num := corrNumerator prices neg_news_counts
               den2 := denomPrice prices * denomNews neg_news_counts }
    else none
  else none

/-- The result dict of `compute_price_news_correlation`: the four keys
are always present (src lines 396-401). -/
structure CorrelationResult where
  correlation_coefficient : Option CorrVal
  days_analyzed : ℕ
  data : List CorrelationRow
  error : Option String
deriving DecidableEq

/-- A result with empty data and the given error string. -/
def errorResult (msg : String) : CorrelationResult :=
  { correlation_coefficient := none, days_analyzed := 0, data := [], error := some msg }

/-- Series selection (src lines 413-421): the first non-empty series in
the order week, month, year. -/
def selectPriceSeries (data : PriceData) : Option (List OHLCVRow) :=
  match data.week with
  | some df => if df.isEmpty then
      (match data.month with
       | some dm => if dm.isEmpty then
           (match data.year with
            | some dy => if dy.isEmpty then none else some dy
            | none => none)
         else some dm
       | none =>
         match data.year with
         | some dy => if dy.isEmpty then none else some dy
         | none => none)
    else some df
  | none =>
    match data.month with
    | some dm => if dm.isEmpty then
        (match data.year with
         | some dy => if dy.isEmpty then none else some dy
         | none => none)
      else some dm
    | none =>
      match data.year with
      | some dy => if dy.isEmpty then none else some dy
      | none => none

/-- Embeds `compute_price_news_correlation` (src lines 383-574).
`security_data = none` models a falsy argument or one without a
`'data'` key. -/
def compute_price_news_correlation (tb : String → ℚ)
    (security_data : Option PriceData) (news_items : NewsArg) :
    CorrelationResult :=
  match security_data with
  | none => errorResult "No security data available"
  | some sd =>
    if news_items.isFalsy then errorResult "No news items available"
    else
      match selectPriceSeries sd with
      | none => errorResult "No historical price data available"
      | some series =>
        let days_to_analyze := min 10 series.length
        let price_data := series.drop (series.length - days_to_analyze)
        let pairs := newsDateSentiments tb news_items
        let correlation_data := price_data.map (fun row =>
          let counts := newsCountsFor pairs row.date
          { date := row.date
            price := row.close
            total_news := counts.total
            negative_news := counts.negative
            neutral_news := counts.neutral
            positive_news := counts.positive : CorrelationRow })
        let prices := correlation_data.map (·.price)
        let neg_news_counts := correlation_data.map (·.negative_news)
        { correlation_coefficient := correlationCoefficient prices neg_news_counts
          days_analyzed := correlation_data.length
          data := correlation_data
          error := none }

/-! ## Price summary (`_generate_price_summary`) -/

/-- First open of the today series (`today_data['Open'].iloc[0]`). -/
def openPriceOf (today_data : List OHLCVRow) : ℚ :=
  (today_data.headD default).openPrice

/-- Last close of the today series (`today_data['Close'].iloc[-1]`). -/
def currentPriceOf (today_data : List OHLCVRow) : ℚ :=
  (today_data.getLastD default).close

/-- `price_change = current_price - open_price` (src line 792). -/
def priceChange (today_data : List OHLCVRow) : ℚ :=
  currentPriceOf today_data - openPriceOf today_data

/-- `price_change_pct = (price_change / open_price) * 100` (src line
793); the model assumes a nonzero open (the claims below hypothesise
it), where the float code would produce an infinity. -/
def priceChangePct (today_data : List OHLCVRow) : ℚ :=
  priceChange today_data / openPriceOf today_data * 100

/-- Direction word (src line 798): `up` only on a strictly positive
change, `down` otherwise (a flat session included). -/
def directionOf (today_data : List OHLCVRow) : String :=
  if priceChange today_data > 0 then "up" else "down"

/-- Magnitude qualifier (src line 799): `slightly` below 1%,
`significantly` strictly above 3%, `moderately` in between (both
boundaries included). -/
def magnitudeOf (today_data : List OHLCVRow) : String :=
  if |priceChangePct today_data| < 1 then "slightly"
  else if |priceChangePct today_data| > 3 then "significantly"
  else "moderately"

/-- The quantities the price-summary prose is built from; the volume
sentence (src lines 805-812) depends on the external stats dict and is
not modelled — no claim concerns it. -/
structure PriceSummary where
  current_price : ℚ
  open_price : ℚ
  price_change : ℚ
  price_change_pct : ℚ
  day_high : ℚ
  day_low : ℚ
  direction : String
  magnitude : String
deriving DecidableEq

/-- Embeds `_generate_price_summary` (src lines 780-817): `None` when
the today series is absent or empty, otherwise the summary fields. -/
def _generate_price_summary (data : PriceData) : Option PriceSummary :=
  match data.today with
  | none => none
  | some today_data =>
    if today_data.isEmpty then none
    else some
      { current_price := currentPriceOf today_data
        open_price := openPriceOf today_data
        price_change := priceChange today_data
        price_change_pct := priceChangePct today_data
        day_high := ((today_data.map (·.high)).max? ).getD 0
        day_low := ((today_data.map (·.low)).min? ).getD 0
        direction := directionOf today_data
        magnitude := magnitudeOf today_data }

/-! ## Theorems -/

/-- C6: for every analyzed news item, the per-item sentiment category
boundaries are exact and strict: a polarity of exactly `0.2` is
`neutral`, a polarity `> 0.2` is `positive`, a polarity `< -0.2` is
`negative`, and exactly `-0.2` is `neutral`; every record emitted by
`analyze_news_impact` is categorised by this rule. -/
theorem sentiment_category_exact_boundaries :
    (∀ p : ℚ, sentimentCategoryOf p = "positive" ↔ p > 1/5) ∧
    (∀ p : ℚ, sentimentCategoryOf p = "negative" ↔ p < -(1/5)) ∧
    sentimentCategoryOf (1/5) = "neutral" ∧
    sentimentCategoryOf (-(1/5)) = "neutral" ∧
    (∀ (tb : String → ℚ) (nowStr : String) (news_items : List NewsItem) r,
      r ∈ (analyze_news_impact tb nowStr news_items).sentiments →
      r.sentiment_category = sentimentCategoryOf r.sentiment) := by
  refine ⟨?_, ?_, by norm_num [sentimentCategoryOf], by norm_num [sentimentCategoryOf], ?_⟩
  · intro p
    unfold sentimentCategoryOf
    split_ifs with h1 h2
    · exact iff_of_true rfl h1
    · exact iff_of_false (by decide) h1
    · exact iff_of_false (by decide) h1
  · intro p
    unfold sentimentCategoryOf
    split_ifs with h1 h2
    · exact iff_of_false (by decide) (by linarith)
    · exact iff_of_true rfl h2
    · exact iff_of_false (by decide) h2
  · intro tb nowStr news_items r hr
    unfold analyze_news_impact at hr
    by_cases h : (validNewsItems news_items).isEmpty
    · simp [h, _get_empty_news_analysis] at hr
    · simp only [h, if_false, Bool.false_eq_true] at hr
      simp only [List.mem_map] at hr
      obtain ⟨item, -, rfl⟩ := hr
      rfl

/-- Witness for C6 at the scorer constantly `0.3` on one valid item. -/
theorem sentiment_category_exact_boundaries_witness :
    sentimentCategoryOf (3/10) = "positive" ∧
    (sentimentRecordOf (fun _ => 3/10) "2025-04-12 09:00:00"
        { title := some "t" }).sentiment_category =
      sentimentCategoryOf ((sentimentRecordOf (fun _ => 3/10) "2025-04-12 09:00:00"
        { title := some "t" }).sentiment) := by
  have h := sentiment_category_exact_boundaries
  refine ⟨(h.1 (3/10)).mpr (by norm_num), ?_⟩
  refine h.2.2.2.2 (fun _ => 3/10) "2025-04-12 09:00:00" [{ title := some "t" }] _ ?_
  simp [analyze_news_impact, validNewsItems]

/-- C7: for every price-data input whose week series has fewer than 10
rows — an absent or empty series included — the indicator engine
returns the empty bundle (and, being a total function, raises
nothing); with 10 or more rows the bundle is non-empty. -/
theorem technical_analysis_short_series (price_data : PriceData) :
    _get_technical_analysis price_data = none ↔
      (price_data.week.getD []).length < 10 := by
  unfold _get_technical_analysis
  rcases hw : price_data.week with _ | df
  · simp
  · simp only [Option.getD_some]
    by_cases he : df.isEmpty
    · have : df = [] := List.isEmpty_iff.mp he
      simp [he, this]
    · simp only [he, Bool.false_eq_true, if_false]
      by_cases h10 : df.length < 10 <;> simp [h10]

/-- Witness for C7: the side condition of the iff is a hypothesis-free
biconditional, but it is exercised here at an absent series and at a
one-row series. -/
theorem technical_analysis_short_series_witness :
    _get_technical_analysis {} = none ∧
    _get_technical_analysis
      { week := some [{ date := "2025-04-07", openPrice := 1, high := 1,
                        low := 1, close := 1, volume := 0 }] } = none := by
  constructor
  · exact (technical_analysis_short_series {}).mpr (by decide)
  · exact (technical_analysis_short_series _).mpr (by decide)

/-- The today series of the C8 boundary scenario: open 100, close 97,
an exact 3% intraday move. -/
def todaySeries97 : List OHLCVRow :=
  [{ date := "2025-04-12", openPrice := 100, high := 100, low := 97,
     close := 97, volume := 0 }]

/-- Characterisation of the three magnitude branches of src line 799. -/
lemma magnitudeOf_cases (t : List OHLCVRow) :
    (magnitudeOf t = "slightly" ↔ |priceChangePct t| < 1) ∧
    (magnitudeOf t = "significantly" ↔ 3 < |priceChangePct t|) ∧
    (magnitudeOf t = "moderately" ↔ 1 ≤ |priceChangePct t| ∧ |priceChangePct t| ≤ 3) := by
  unfold magnitudeOf
  split_ifs with h1 h2
  · exact ⟨iff_of_true rfl h1,
      iff_of_false (by decide) (by linarith),
      iff_of_false (by decide) (fun hc => by linarith [hc.1])⟩
  · exact ⟨iff_of_false (by decide) h1,
      iff_of_true rfl h2,
      iff_of_false (by decide) (fun hc => by linarith [hc.2])⟩
  · exact ⟨iff_of_false (by decide) h1,
      iff_of_false (by decide) h2,
      iff_of_true rfl ⟨not_lt.mp h1, not_lt.mp h2⟩⟩

/-- The price summary on a present, non-empty today series. -/
lemma generate_price_summary_some (data : PriceData) (t : List OHLCVRow)
    (ht : data.today = some t) (hne : t ≠ []) :
    ∃ ps, _generate_price_summary data = some ps ∧
      ps.magnitude = magnitudeOf t ∧ ps.direction = directionOf t := by
  unfold _generate_price_summary
  rw [ht]
  simp only [List.isEmpty_iff, hne, if_false]
  exact ⟨_, rfl, rfl, rfl⟩

/-- C8: the price summary's magnitude qualifier is `slightly` iff the
absolute intraday percent change is `< 1`, `significantly` iff it is
strictly `> 3`, and `moderately` otherwise; in particular an exact 3%
move sits in `moderately`.  The nonzero-open hypothesis only scopes the
statement to the inputs where the rational model of the float division
is faithful; the proof does not need it. -/
theorem price_summary_magnitude_thresholds (data : PriceData)
    (t : List OHLCVRow) (ht : data.today = some t) (hne : t ≠ [])
    (h0 : openPriceOf t ≠ 0) :
    ∃ ps, _generate_price_summary data = some ps ∧
      ps.magnitude = magnitudeOf t ∧
      (ps.magnitude = "slightly" ↔ |priceChangePct t| < 1) ∧
      (ps.magnitude = "significantly" ↔ 3 < |priceChangePct t|) ∧
      (ps.magnitude = "moderately" ↔ 1 ≤ |priceChangePct t| ∧ |priceChangePct t| ≤ 3) := by
  clear h0
  obtain ⟨ps, hps, hm, -⟩ := generate_price_summary_some data t ht hne
  refine ⟨ps, hps, hm, ?_, ?_, ?_⟩ <;> rw [hm]
  · exact (magnitudeOf_cases t).1
  · exact (magnitudeOf_cases t).2.1
  · exact (magnitudeOf_cases t).2.2

/-- Witness for C8: the open-100/close-97 scenario, an exact 3% drop,
is labeled `moderately`. -/
theorem price_summary_magnitude_thresholds_witness :
    (_generate_price_summary { today := some todaySeries97 }).map
      (fun ps => ps.magnitude) = some "moderately" := by
  obtain ⟨ps, hps, hmag, -, -, -⟩ :=
    price_summary_magnitude_thresholds { today := some todaySeries97 }
      todaySeries97 rfl (by decide) (by norm_num [openPriceOf, todaySeries97])
  rw [hps, Option.map_some', hmag]
  have hpc : priceChangePct todaySeries97 = -3 := by
    norm_num [priceChangePct, priceChange, currentPriceOf, openPriceOf,
      todaySeries97, List.getLastD]
  norm_num [magnitudeOf, hpc]

/-- C10: when the intraday change is exactly zero the price summary
reports direction `down`; `up` is used exactly for a strictly positive
change. -/
theorem price_summary_direction_zero_down (data : PriceData)
    (t : List OHLCVRow) (ht : data.today = some t) (hne : t ≠ []) :
    ∃ ps, _generate_price_summary data = some ps ∧
      (priceChange t = 0 → ps.direction = "down") ∧
      (ps.direction = "up" ↔ 0 < priceChange t) := by
  obtain ⟨ps, hps, -, hd⟩ := generate_price_summary_some data t ht hne
  refine ⟨ps, hps, ?_, ?_⟩ <;> rw [hd] <;> unfold directionOf <;> split_ifs with h1
  · intro hz; rw [hz] at h1; exact absurd h1 (lt_irrefl 0)
  · intro _; rfl
  · exact iff_of_true rfl h1
  · exact iff_of_false (by decide) h1

/-- The flat session used to exercise C10. -/
def todaySeriesFlat : List OHLCVRow :=
  [{ date := "2025-04-12", openPrice := 100, high := 100, low := 100,
     close := 100, volume := 0 }]

/-- Witness for C10: a flat session (open 100, close 100) is reported
as `down`. -/
theorem price_summary_direction_zero_down_witness :
    (_generate_price_summary { today := some todaySeriesFlat }).map
      (fun ps => ps.direction) = some "down" := by
  obtain ⟨ps, hps, hzero, -⟩ :=
    price_summary_direction_zero_down { today := some todaySeriesFlat }
      todaySeriesFlat rfl (by decide)
  have hz : priceChange todaySeriesFlat = 0 := by
    norm_num [priceChange, currentPriceOf, openPriceOf, todaySeriesFlat,
      List.getLastD]
  rw [hps, Option.map_some', hzero hz]

/-- C9: for every cache key, `get` returns the stored value only if
`now - stored_time < ttl`, the ttl being fixed at construction to one
hour (3600 s); an entry at least ttl old behaves as absent, and an
entry whose stored string timestamp fails to parse as
`YYYY-MM-DD HH:MM:SS` is also a miss; no case raises (the embedding is
a total function into `Option`). -/
theorem cache_get_ttl_semantics {α : Type} (self : AnalyzerCache α) (now : ℚ)
    (key : String) (httl : self.cache_expiry = init_cache_expiry) :
    init_cache_expiry = 3600 ∧
    (self.data_cache.lookup key = none → _get_from_cache self now key = none) ∧
    (∀ ct v, self.data_cache.lookup key = some (ct, v) →
      (_get_from_cache self now key = some v ↔
        ∃ t, resolveCacheTime ct = some t ∧ now - t < 3600)) ∧
    (∀ ct v t, self.data_cache.lookup key = some (ct, v) →
      resolveCacheTime ct = some t → 3600 ≤ now - t →
      _get_from_cache self now key = none) ∧
    (∀ s v, self.data_cache.lookup key = some (CacheTime.str s, v) →
      strptime s = none → _get_from_cache self now key = none) := by
  have hexp : self.cache_expiry = 3600 := httl
  refine ⟨rfl, ?_, ?_, ?_, ?_⟩
  · intro h; unfold _get_from_cache; rw [h]
  · intro ct v h
    unfold _get_from_cache
    rw [h, hexp]
    rcases hr : resolveCacheTime ct with _ | t
    · simp [hr]
    · simp only [hr]
      by_cases hlt : now - t < 3600 <;> simp [hlt]
  · intro ct v t h hr hle
    unfold _get_from_cache
    rw [h, hexp]
    simp [hr, not_lt.mpr hle]
  · intro s v h hp
    unfold _get_from_cache
    rw [h]
    show (match resolveCacheTime (CacheTime.str s) with
          | none => none
          | some t => if now - t < self.cache_expiry then some v else none) = none
    rw [show resolveCacheTime (CacheTime.str s) = strptime s from rfl, hp]

/-- The concrete cache exercising C9: a datetime entry at second 0 and
an entry with a corrupt string timestamp. -/
def cacheW : AnalyzerCache ℕ :=
  { data_cache := [("k", CacheTime.dt 0, 7), ("b", CacheTime.str "oops", 3)]
    cache_expiry := init_cache_expiry }

/-- Witness for C9: a fresh entry hits, the same entry 5000 s later
misses, and the corrupt-timestamp entry always misses. -/
theorem cache_get_ttl_semantics_witness :
    _get_from_cache cacheW 1000 "k" = some 7 ∧
    _get_from_cache cacheW 5000 "k" = none ∧
    _get_from_cache cacheW 1000 "b" = none := by
  have h1 := cache_get_ttl_semantics cacheW 1000 "k" rfl
  have h2 := cache_get_ttl_semantics cacheW 5000 "k" rfl
  have h3 := cache_get_ttl_semantics cacheW 1000 "b" rfl
  refine ⟨?_, ?_, ?_⟩
  · exact (h1.2.2.1 (CacheTime.dt 0) 7 rfl).mpr ⟨0, rfl, by norm_num⟩
  · exact h2.2.2.2.1 (CacheTime.dt 0) 7 0 rfl rfl (by norm_num)
  · exact h3.2.2.2.2 "oops" 3 rfl rfl

/-- The 10-row week series exercising C3: enough rows for the engine to
run, but fewer than the RSI window (14) and the Bollinger window (20). -/
def weekRows10 : List OHLCVRow :=
  [1, 2, 3, 4, 5, 6, 7, 8, 9, 10].map (fun c =>
    { date := "", openPrice := c, high := c, low := c, close := c, volume := 0 })

/-- The price data holding `weekRows10` as its week series. -/
def weekData10 : PriceData := { week := some weekRows10 }

/-- C3 counterexample: on a 10-row series the RSI family lacks its
14-window history — its value is NaN (`none`) — and the Bollinger
family lacks its 20-window history, yet the `signals` aggregate maps
both families to the substitute value `neutral` instead of omitting
them. -/
theorem signals_aggregate_counterexample :
    (_get_technical_analysis weekData10).map
        (fun a => (a.rsi, a.signals.rsi, a.bollinger.middle, a.signals.bollinger)) =
      some (none, "neutral", none, "neutral") ∧
    weekRows10.length < 14 ∧ weekRows10.length < 20 := by
  refine ⟨rfl, by decide, by decide⟩

/-- C3 (amended): the `signals` aggregate always carries one value per
family, equal to the family's computed signal; a family whose window
exceeds the available history is not omitted from the aggregate but
appears with the value `neutral` (its NaN values fail every
comparison), RSI below 14 rows and Bollinger below 20 rows. -/
theorem signals_aggregate_defaults (pd : PriceData) (df : List OHLCVRow)
    (a : TechnicalAnalysis) (hw : pd.week = some df)
    (ha : _get_technical_analysis pd = some a) :
    a.signals.sma = a.sma.sma5_signal ∧
    a.signals.rsi = a.rsi_signal ∧
    a.signals.macd = a.macd_signal ∧
    a.signals.bollinger = a.bollinger.signal ∧
    (df.length < 14 → a.rsi = none ∧ a.signals.rsi = "neutral") ∧
    (df.length < 20 → a.bollinger.middle = none ∧ a.bollinger.variance = none ∧
      a.signals.bollinger = "neutral") := by
  unfold _get_technical_analysis at ha
  rw [hw] at ha
  by_cases he : df.isEmpty
  · simp [he] at ha
  · simp only [he, Bool.false_eq_true, if_false] at ha
    by_cases h10 : df.length < 10
    · simp [h10] at ha
    · simp only [h10, if_false, Option.some.injEq] at ha
      subst ha
      refine ⟨rfl, rfl, rfl, rfl, ?_, ?_⟩
      · intro h14
        have hne : df.map (·.close) ≠ [] := by
          simp only [ne_eq, List.map_eq_nil_iff]
          intro hnil; rw [hnil] at h10; exact h10 (by norm_num)
        have hlen : ((seriesDiff (df.map (·.close))).length) = df.length := by
          rcases hc : df.map (·.close) with _ | ⟨x, t⟩
          · exact absurd hc hne
          · have : df.length = t.length + 1 := by
              have := congrArg List.length hc
              simpa using this
            simp [hc, seriesDiff, List.length_zipWith, this]
        have hg : rollingMeanLast 14 ((seriesDiff (df.map (·.close))).map gainOf) = none := by
          unfold rollingMeanLast
          simp [hlen, h14]
        have hl : rollingMeanLast 14 ((seriesDiff (df.map (·.close))).map lossOf) = none := by
          unfold rollingMeanLast
          simp [hlen, h14]
        have hrsi : rsiLast (df.map (·.close)) = none := by
          unfold rsiLast
          simp only [hg, hl]
        constructor
        · exact hrsi
        · show rsiSignalOf (rsiLast (df.map (·.close))) = "neutral"
          rw [hrsi]
          rfl
      · intro h20
        have hm : rollingMeanLast 20 (df.map (·.close)) = none := by
          unfold rollingMeanLast
          simp [h20]
        have hv : rollingVarLast 20 (df.map (·.close)) = none := by
          unfold rollingVarLast
          simp [h20]
        refine ⟨hm, hv, ?_⟩
        show bollingerSignalOf ((df.map (·.close)).getLastD 0)
            (rollingMeanLast 20 (df.map (·.close)))
            (rollingVarLast 20 (df.map (·.close))) = "neutral"
        rw [hm, hv]
        rfl

/-- Witness for C3: on the concrete 10-row series, the RSI is NaN and
the aggregate still reports `neutral` for it. -/
theorem signals_aggregate_defaults_witness :
    weekRows10.length < 14 ∧
    (_get_technical_analysis weekData10).map (fun a => a.signals.rsi) =
      some "neutral" := by
  have ha : _get_technical_analysis weekData10 =
      some (technicalAnalysisBody weekRows10) := rfl
  have h := signals_aggregate_defaults weekData10 weekRows10 _ rfl ha
  refine ⟨by decide, ?_⟩
  rw [ha, Option.map_some']
  exact congrArg some (h.2.2.2.2.1 (by decide)).2

/-- A concrete scorer (never consulted by the dict branch). -/
def tbZero : String → ℚ := fun _ => 0

/-- The single price row of the correlation counterexamples. -/
def row411 : OHLCVRow :=
  { date := "2025-04-11", openPrice := 5, high := 5, low := 5, close := 5,
    volume := 0 }

/-- A one-row week series for the correlation counterexamples. -/
def secData1 : PriceData := { week := some [row411] }

/-- C1 counterexample: the empty-news-analysis structure is a dict with
keys, hence truthy; fed to the correlation engine with a one-row week
series the result is a normal one — `error` is None and one day is
analyzed — not the `No news items available` error with zero days and
empty data the claim asserts for every security input. -/
theorem empty_news_roundtrip_counterexample :
    (compute_price_news_correlation tbZero (some secData1)
        (NewsArg.sentimentDict [])).error = none ∧
    (compute_price_news_correlation tbZero (some secData1)
        (NewsArg.sentimentDict [])).days_analyzed = 1 := by
  exact ⟨rfl, rfl⟩

/-- C1 (amended): the `No news items available` early return fires
exactly on a falsy news argument — `None` or an empty raw list — for
every security data that passes the data-presence check, with zero days
and empty data; the empty-news-analysis structure instead is truthy and
is processed as news with no sentiments: it never produces the no-news
error, and every emitted row carries zero news counts. -/
theorem empty_news_roundtrip (tb : String → ℚ) (sd : PriceData)
    (security_data : Option PriceData) :
    (∀ news : NewsArg, news.isFalsy = true →
      compute_price_news_correlation tb (some sd) news =
        errorResult "No news items available") ∧
    (compute_price_news_correlation tb security_data
        (NewsArg.sentimentDict [])).error ≠ some "No news items available" ∧
    (∀ row ∈ (compute_price_news_correlation tb security_data
        (NewsArg.sentimentDict [])).data,
      row.total_news = 0 ∧ row.negative_news = 0 ∧
      row.neutral_news = 0 ∧ row.positive_news = 0) := by
  refine ⟨?_, ?_, ?_⟩
  · intro news hf
    unfold compute_price_news_correlation
    rw [hf]
    rfl
  · rcases security_data with _ | sd'
    · intro hcontra
      rw [show compute_price_news_correlation tb none (NewsArg.sentimentDict []) =
          errorResult "No security data available" from rfl] at hcontra
      simp [errorResult] at hcontra
    · unfold compute_price_news_correlation
      rcases hsel : selectPriceSeries sd' with _ | series
      · intro hcontra
        simp only [NewsArg.isFalsy, Bool.false_eq_true, if_false, hsel,
          errorResult] at hcontra
        exact absurd (Option.some.inj hcontra) (by decide)
      · intro hcontra
        simp only [NewsArg.isFalsy, Bool.false_eq_true, if_false, hsel] at hcontra
        exact Option.noConfusion hcontra
  · intro row hrow
    rcases security_data with _ | sd'
    · rw [show compute_price_news_correlation tb none (NewsArg.sentimentDict []) =
          errorResult "No security data available" from rfl] at hrow
      simp [errorResult] at hrow
    · unfold compute_price_news_correlation at hrow
      rcases hsel : selectPriceSeries sd' with _ | series
      · simp only [NewsArg.isFalsy, Bool.false_eq_true, if_false, hsel,
          errorResult] at hrow
        simp at hrow
      · simp only [NewsArg.isFalsy, Bool.false_eq_true, if_false, hsel,
          List.mem_map] at hrow
        obtain ⟨r, -, rfl⟩ := hrow
        exact ⟨rfl, rfl, rfl, rfl⟩

/-- Witness for C1: a `None` news argument produces the no-news error
result, and the empty-news-analysis structure does not. -/
theorem empty_news_roundtrip_witness :
    compute_price_news_correlation tbZero (some secData1) NewsArg.noneArg =
      errorResult "No news items available" ∧
    (compute_price_news_correlation tbZero (some secData1)
        (NewsArg.sentimentDict [])).error ≠ some "No news items available" := by
  have h := empty_news_roundtrip tbZero secData1 (some secData1)
  exact ⟨h.1 NewsArg.noneArg rfl, h.2.1⟩

/-- The three sentiment buckets of the per-date counting loop
partition the extracted pairs. -/
lemma counts_partition (l : List (String × ℚ)) :
    l.countP (fun p => p.2 < -(1/10)) +
      l.countP (fun p => ¬(p.2 < -(1/10)) ∧ ¬(p.2 > 1/10)) +
      l.countP (fun p => p.2 > 1/10) = l.length := by
  induction l with
  | nil => rfl
  | cons x t ih =>
    simp only [List.countP_cons, List.length_cons, decide_eq_true_eq]
    by_cases h1 : x.2 < -(1/10) <;> by_cases h2 : x.2 > 1/10
    · linarith
    · rw [if_pos h1, if_neg (fun hc => hc.1 h1), if_neg h2]; omega
    · rw [if_neg h1, if_neg (fun hc => hc.2 h2), if_pos h2]; omega
    · rw [if_neg h1, if_pos ⟨h1, h2⟩, if_neg h2]; omega

/-- C2 (amended): in every result row of the correlation engine, the
per-date counts classify each extracted news pair by the ±0.1
thresholds of the overall-label rule — negative iff sentiment `< -0.1`,
positive iff `> 0.1`, neutral otherwise — not the ±0.2 per-item
thresholds of §4.3; the three buckets partition the date's items. -/
theorem correlation_counts_thresholds (tb : String → ℚ)
    (security_data : Option PriceData) (news : NewsArg) (row : CorrelationRow)
    (hrow : row ∈ (compute_price_news_correlation tb security_data news).data) :
    row.total_news =
      ((newsDateSentiments tb news).filter (fun p => p.1 = row.date)).length ∧
    row.negative_news = ((newsDateSentiments tb news).filter
      (fun p => p.1 = row.date)).countP (fun p => p.2 < -(1/10)) ∧
    row.positive_news = ((newsDateSentiments tb news).filter
      (fun p => p.1 = row.date)).countP (fun p => p.2 > 1/10) ∧
    row.neutral_news = ((newsDateSentiments tb news).filter
      (fun p => p.1 = row.date)).countP
        (fun p => ¬(p.2 < -(1/10)) ∧ ¬(p.2 > 1/10)) ∧
    row.negative_news + row.neutral_news + row.positive_news = row.total_news := by
  rcases security_data with _ | sd'
  · rw [show compute_price_news_correlation tb none news =
        errorResult "No security data available" from rfl] at hrow
    simp [errorResult] at hrow
  · unfold compute_price_news_correlation at hrow
    by_cases hf : news.isFalsy
    · simp only [hf, if_true, errorResult] at hrow
      simp at hrow
    · simp only [Bool.not_eq_true] at hf
      rcases hsel : selectPriceSeries sd' with _ | series
      · simp only [hf, Bool.false_eq_true, if_false, hsel, errorResult] at hrow
        simp at hrow
      · simp only [hf, Bool.false_eq_true, if_false, hsel, List.mem_map] at hrow
        obtain ⟨r, -, rfl⟩ := hrow
        exact ⟨rfl, rfl, rfl, rfl, counts_partition _⟩

/-- The sentiment-dict item with polarity 0.15 exercising C2. -/
def sentItem15 : SentimentDictItem :=
  { timestamp := some "2025-04-11 09:30", sentiment := some (3/20) }

/-- C2 counterexample: a news item of polarity `0.15` — `neutral` under
the §4.3 thresholds since `0.15 ≤ 0.2` — is counted as positive news by
the correlation engine, whose counting loop uses `> 0.1`. -/
theorem correlation_counts_thresholds_counterexample :
    (compute_price_news_correlation tbZero (some secData1)
        (NewsArg.sentimentDict [sentItem15])).data =
      [{ date := "2025-04-11", price := 5, total_news := 1, negative_news := 0,
         neutral_news := 0, positive_news := 1 }] ∧
    ¬((3:ℚ)/20 > 1/5) ∧ sentimentCategoryOf (3/20) = "neutral" := by
  refine ⟨?_, by norm_num, ?_⟩
  · have hdate : extractDate "2025-04-11 09:30" = some "2025-04-11" := by decide
    have hpairs : newsDateSentiments tbZero (NewsArg.sentimentDict [sentItem15]) =
        [("2025-04-11", (3 : ℚ)/20)] := by
      simp [newsDateSentiments, sentItem15, hdate]
    have hcounts : newsCountsFor [("2025-04-11", (3 : ℚ)/20)] "2025-04-11" =
        { total := 1, negative := 0, neutral := 0, positive := 1 } := by
      unfold newsCountsFor
      have hne : ¬((3:ℚ)/20 < -(1/10)) := by norm_num
      have hpo : (3:ℚ)/20 > 1/10 := by norm_num
      simp [List.countP_cons, hne, hpo]
      norm_num
    unfold compute_price_news_correlation
    simp only [NewsArg.isFalsy, Bool.false_eq_true, if_false,
      show selectPriceSeries secData1 = some [row411] from rfl,
      show List.drop ([row411].length - min 10 [row411].length) [row411] =
        [row411] from rfl,
      hpairs, List.map_cons, List.map_nil]
    rw [show row411.date = "2025-04-11" from rfl, hcounts]
    rfl
  · unfold sentimentCategoryOf
    rw [if_neg (by norm_num), if_neg (by norm_num)]

/-- The zero-count row emitted for `secData1` when no news matches. -/
def rowZero : CorrelationRow :=
  { date := "2025-04-11", price := 5, total_news := 0, negative_news := 0,
    neutral_news := 0, positive_news := 0 }

/-- Witness for C2 at the empty sentiments dict over `secData1`. -/
theorem correlation_counts_thresholds_witness :
    rowZero.total_news =
      ((newsDateSentiments tbZero (NewsArg.sentimentDict [])).filter
        (fun p => p.1 = rowZero.date)).length := by
  refine (correlation_counts_thresholds tbZero (some secData1)
    (NewsArg.sentimentDict []) rowZero ?_).1
  rw [show (compute_price_news_correlation tbZero (some secData1)
      (NewsArg.sentimentDict [])).data = [rowZero] from rfl]
  exact List.mem_singleton_self rowZero

/-- Every element of a stable descending insertion comes from the list
or is the inserted entry. -/
lemma mem_insertByCountDesc {l : List (String × ℕ)} {x p : String × ℕ}
    (h : p ∈ insertByCountDesc l x) : p ∈ l ∨ p = x := by
  induction l with
  | nil => simpa [insertByCountDesc] using h
  | cons y ys ih =>
    unfold insertByCountDesc at h
    split_ifs at h with hc
    · rcases List.mem_cons.mp h with h | h
      · exact Or.inl (h ▸ List.mem_cons_self y ys)
      · rcases ih h with h' | h'
        · exact Or.inl (List.mem_cons_of_mem y h')
        · exact Or.inr h'
    · rcases List.mem_cons.mp h with h | h
      · exact Or.inr h
      · exact Or.inl h

/-- Stable descending insertion preserves descending order by count. -/
lemma sorted_insertByCountDesc {l : List (String × ℕ)} {x : String × ℕ}
    (h : l.Pairwise (fun p q => q.2 ≤ p.2)) :
    (insertByCountDesc l x).Pairwise (fun p q => q.2 ≤ p.2) := by
  induction l with
  | nil => simp [insertByCountDesc]
  | cons y ys ih =>
    rw [List.pairwise_cons] at h
    unfold insertByCountDesc
    split_ifs with hc
    · rw [List.pairwise_cons]
      refine ⟨?_, ih h.2⟩
      intro p hp
      rcases mem_insertByCountDesc hp with h' | h'
      · exact h.1 p h'
      · exact h' ▸ hc
    · rw [List.pairwise_cons]
      refine ⟨?_, List.pairwise_cons.mpr h⟩
      intro p hp
      rcases List.mem_cons.mp hp with h' | h'
      · exact h' ▸ le_of_lt (not_le.mp hc)
      · exact le_trans (h.1 p h') (le_of_lt (not_le.mp hc))

/-- The counter sort is descending by count. -/
lemma sorted_sortByCountDesc (c acc : List (String × ℕ))
    (hacc : acc.Pairwise (fun p q => q.2 ≤ p.2)) :
    (c.foldl insertByCountDesc acc).Pairwise (fun p q => q.2 ≤ p.2) := by
  induction c generalizing acc with
  | nil => simpa using hacc
  | cons x xs ih => exact ih _ (sorted_insertByCountDesc hacc)

/-- The counter sort permutes the counter: memberships are preserved. -/
lemma mem_sortByCountDesc {c acc : List (String × ℕ)} {p : String × ℕ}
    (h : p ∈ c.foldl insertByCountDesc acc) : p ∈ acc ∨ p ∈ c := by
  induction c generalizing acc with
  | nil => exact Or.inl (by simpa using h)
  | cons x xs ih =>
    rcases ih (by simpa using h) with h' | h'
    · rcases mem_insertByCountDesc h' with h'' | h''
      · exact Or.inl h''
      · exact Or.inr (h'' ▸ List.mem_cons_self x xs)
    · exact Or.inr (List.mem_cons_of_mem x h')

/-- A bumped counter's keys are the old keys plus the bumped word. -/
lemma counterBump_keys {c : List (String × ℕ)} {w : String} {p : String × ℕ}
    (h : p ∈ counterBump c w) : p.1 = w ∨ ∃ q ∈ c, p.1 = q.1 := by
  induction c with
  | nil =>
    simp only [counterBump, List.mem_singleton] at h
    exact Or.inl (by rw [h])
  | cons y ys ih =>
    obtain ⟨k, n⟩ := y
    unfold counterBump at h
    split_ifs at h with hc
    · rcases List.mem_cons.mp h with h | h
      · exact Or.inr ⟨(k, n), List.mem_cons_self _ _, by rw [h]⟩
      · exact Or.inr ⟨p, List.mem_cons_of_mem _ h, rfl⟩
    · rcases List.mem_cons.mp h with h | h
      · exact Or.inr ⟨(k, n), List.mem_cons_self _ _, by rw [h]⟩
      · rcases ih h with h' | h'
        · exact Or.inl h'
        · obtain ⟨q, hq, hpq⟩ := h'
          exact Or.inr ⟨q, List.mem_cons_of_mem _ hq, hpq⟩

/-- Every key of an updated counter is an old key or an inserted word. -/
lemma counterUpdate_keys {ws : List String} {c : List (String × ℕ)}
    {p : String × ℕ} (h : p ∈ counterUpdate c ws) :
    (∃ q ∈ c, p.1 = q.1) ∨ p.1 ∈ ws := by
  induction ws generalizing c with
  | nil => exact Or.inl ⟨p, by simpa [counterUpdate] using h, rfl⟩
  | cons w ws ih =>
    rcases ih (by simpa [counterUpdate] using h) with h' | h'
    · obtain ⟨q, hq, hpq⟩ := h'
      rcases counterBump_keys hq with h'' | h''
      · exact Or.inr (by rw [hpq, h'']; exact List.mem_cons_self _ _)
      · obtain ⟨q', hq', hq''⟩ := h''
        exact Or.inl ⟨q', hq', by rw [hpq, hq'']⟩
    · exact Or.inr (List.mem_cons_of_mem _ h')

/-- What survives the keyword filter: tokens longer than 3 characters
that are not stop words. -/
lemma filteredWords_spec {content w : String}
    (h : w ∈ filteredWords content) :
    3 < w.length ∧ ¬ w ∈ stopWords ∧ w ∈ findWords content := by
  unfold filteredWords at h
  obtain ⟨hmem, hcond⟩ := List.mem_filter.mp h
  rw [Bool.and_eq_true] at hcond
  obtain ⟨h1, h2⟩ := hcond
  refine ⟨of_decide_eq_true h1, ?_, hmem⟩
  intro hw
  rw [Bool.not_eq_true'] at h2
  have h3 : stopWords.contains w = true := List.elem_eq_true_of_mem hw
  rw [h2] at h3
  exact Bool.false_ne_true h3

/-- C4 (amended): the classifier tokenizes each item's content into
lowercase alphabetic words of at least 3 letters (hyphens allowed),
keeps only tokens of MORE than 3 characters that are not stop words
(so a 3-letter word can never become a keyword), accumulates counts
across all valid items, and returns as `keywords` the keys of the top
20 counter entries sorted stably by descending frequency. -/
theorem keywords_top20 (tb : String → ℚ) (nowStr : String)
    (news_items : List NewsItem) :
    (analyze_news_impact tb nowStr news_items).keywords.length ≤ 20 ∧
    (mostCommon (counterUpdate [] ((validNewsItems news_items).flatMap
        (fun item => filteredWords (contentOf item)))) 20).Pairwise
      (fun p q => q.2 ≤ p.2) ∧
    ((validNewsItems news_items).isEmpty = false →
      (analyze_news_impact tb nowStr news_items).keywords =
        (mostCommon (counterUpdate [] ((validNewsItems news_items).flatMap
          (fun item => filteredWords (contentOf item)))) 20).map Prod.fst) ∧
    (∀ w ∈ (analyze_news_impact tb nowStr news_items).keywords,
      3 < w.length ∧ ¬ w ∈ stopWords ∧
      ∃ item ∈ validNewsItems news_items, w ∈ findWords (contentOf item)) := by
  have hkw : ∀ w ∈ (analyze_news_impact tb nowStr news_items).keywords,
      3 < w.length ∧ ¬ w ∈ stopWords ∧
      ∃ item ∈ validNewsItems news_items, w ∈ findWords (contentOf item) := by
    intro w hw
    unfold analyze_news_impact at hw
    by_cases hv : (validNewsItems news_items).isEmpty
    · simp [hv, _get_empty_news_analysis] at hw
    · simp only [hv, Bool.false_eq_true, if_false] at hw
      simp only [List.mem_map] at hw
      obtain ⟨p, hp, rfl⟩ := hw
      have hp' : p ∈ counterUpdate []
          ((validNewsItems news_items).flatMap
            (fun item => filteredWords (contentOf item))) := by
        have := mem_sortByCountDesc (List.mem_of_mem_take hp)
        simpa using this
      rcases counterUpdate_keys hp' with h' | h'
      · simp at h'
      · obtain ⟨item, hitem, hwmem⟩ := List.mem_flatMap.mp h'
        obtain ⟨h1, h2, h3⟩ := filteredWords_spec hwmem
        exact ⟨h1, h2, item, hitem, h3⟩
  refine ⟨?_, ?_, ?_, hkw⟩
  · unfold analyze_news_impact
    by_cases hv : (validNewsItems news_items).isEmpty
    · simp [hv, _get_empty_news_analysis]
    · simp only [hv, Bool.false_eq_true, if_false]
      rw [List.length_map]
      exact List.length_take_le 20 _
  · exact List.Pairwise.sublist (List.take_sublist 20 _)
      (sorted_sortByCountDesc _ [] List.Pairwise.nil)
  · intro hv
    unfold analyze_news_impact
    simp only [hv, Bool.false_eq_true, if_false]

/-- C4 counterexample: the item titled `fed` produces the 3-letter
non-stop-word token `fed` with top frequency, yet the keyword list is
empty: the filter keeps only words longer than 3 characters. -/
theorem keywords_top20_counterexample :
    (analyze_news_impact tbZero "2025-04-12 09:00:00"
        [{ title := some "fed" }]).keywords = [] ∧
    findWords (contentOf { title := some "fed" }) = ["fed"] ∧
    ¬ 3 < "fed".length ∧ ¬ "fed" ∈ stopWords := by
  exact ⟨rfl, rfl, by decide, by decide⟩

/-- Witness for C4 on one item titled `market market surge`. -/
theorem keywords_top20_witness :
    (analyze_news_impact tbZero "2025-04-12 09:00:00"
        [{ title := some "market market surge" }]).keywords =
      ["market", "surge"] ∧
    3 < "market".length ∧ ¬ "market" ∈ stopWords := by
  have hk : (analyze_news_impact tbZero "2025-04-12 09:00:00"
      [{ title := some "market market surge" }]).keywords =
      ["market", "surge"] := rfl
  have h := (keywords_top20 tbZero "2025-04-12 09:00:00"
      [{ title := some "market market surge" }]).2.2.2 "market"
    (by rw [hk]; exact List.mem_cons_self _ _)
  exact ⟨hk, h.1, h.2.1⟩

/-- A sum of squares is nonnegative. -/
lemma sum_sq_nonneg (l : List ℚ) : 0 ≤ (l.map (· ^ 2)).sum := by
  apply List.sum_nonneg
  intro z hz
  obtain ⟨x, -, rfl⟩ := List.mem_map.mp hz
  exact sq_nonneg x

/-- Cauchy–Schwarz for lists: the squared sum of pointwise products is
at most the product of the sums of squares (truncation by `zipWith`
only shrinks the left side). -/
lemma list_cauchy_schwarz (a b : List ℚ) :
    ((List.zipWith (· * ·) a b).sum) ^ 2 ≤
      (a.map (· ^ 2)).sum * (b.map (· ^ 2)).sum := by
  induction a generalizing b with
  | nil => simp
  | cons x xs ih =>
    cases b with
    | nil =>
      simp only [List.zipWith_nil_right, List.sum_nil, List.map_nil, mul_zero]
      positivity
    | cons y ys =>
      simp only [List.zipWith_cons_cons, List.map_cons, List.sum_cons]
      have hA : 0 ≤ (xs.map (· ^ 2)).sum := sum_sq_nonneg xs
      have hB : 0 ≤ (ys.map (· ^ 2)).sum := sum_sq_nonneg ys
      have ihb := ih ys
      set S := (List.zipWith (· * ·) xs ys).sum with hS
      set A := (xs.map (· ^ 2)).sum with hA'
      set B := (ys.map (· ^ 2)).sum with hB'
      by_cases hB0 : B = 0
      · have hS2 : S ^ 2 ≤ 0 := by nlinarith [ihb]
        have hS0 : S = 0 := by nlinarith [sq_nonneg S]
        rw [hB0, hS0]
        nlinarith [hA, sq_nonneg y, mul_nonneg hA (sq_nonneg y)]
      · have hBpos : 0 < B := lt_of_le_of_ne hB (Ne.symm hB0)
        nlinarith [ihb, hA, hBpos, sq_nonneg (x * B - y * S),
          mul_nonneg (add_nonneg (sq_nonneg y) hB)
            (sub_nonneg.mpr ihb)]

/-- The centered-sum numerator obeys Cauchy–Schwarz against the two
centered-sum denominators. -/
lemma corrNumerator_sq_le (ps : List ℚ) (ns : List ℕ) :
    (corrNumerator ps ns) ^ 2 ≤ denomPrice ps * denomNews ns := by
  unfold corrNumerator denomPrice denomNews
  have h := list_cauchy_schwarz (ps.map (fun p => p - listMean ps))
    ((ns.map (fun n => (n : ℚ))).map
      (fun n => n - listMean (ns.map (fun n => (n : ℚ)))))
  rw [List.zipWith_map, List.map_map, List.map_map] at h
  simpa [Function.comp_def] using h

/-- The two centered-sum denominators are nonnegative. -/
lemma denomPrice_nonneg (ps : List ℚ) : 0 ≤ denomPrice ps := by
  unfold denomPrice
  apply List.sum_nonneg
  intro z hz
  obtain ⟨x, -, rfl⟩ := List.mem_map.mp hz
  exact sq_nonneg _

/-- The news denominator is nonnegative. -/
lemma denomNews_nonneg (ns : List ℕ) : 0 ≤ denomNews ns := by
  unfold denomNews
  apply List.sum_nonneg
  intro z hz
  obtain ⟨x, -, rfl⟩ := List.mem_map.mp hz
  exact sq_nonneg _

/-- A represented coefficient `n / √d` with `n² ≤ d` and `d > 0` lies
in `[-1, 1]`. -/
lemma corrVal_bounds {n d : ℚ} (hd : 0 < d) (h : n ^ 2 ≤ d) :
    -1 ≤ (n : ℝ) / Real.sqrt (d : ℝ) ∧ (n : ℝ) / Real.sqrt (d : ℝ) ≤ 1 := by
  have hdR : (0:ℝ) < (d:ℝ) := by exact_mod_cast hd
  have hsq : ((n:ℝ)) ^ 2 ≤ (d:ℝ) := by exact_mod_cast h
  have hsqrt : 0 < Real.sqrt (d:ℝ) := Real.sqrt_pos.mpr hdR
  have habs : |(n:ℝ)| ≤ Real.sqrt (d:ℝ) := by
    rw [← Real.sqrt_sq_eq_abs]
    exact Real.sqrt_le_sqrt hsq
  rw [← abs_le, abs_div, abs_of_nonneg (le_of_lt hsqrt)]
  exact (div_le_one hsqrt).mpr habs

/-- A deduplicated list has at most one element exactly when the list
is constant (`len(set(l)) ≤ 1`). -/
lemma dedup_length_le_one_iff (l : List ℚ) :
    l.dedup.length ≤ 1 ↔ ∀ a ∈ l, ∀ b ∈ l, a = b := by
  constructor
  · intro h a ha b hb
    have ha' := List.mem_dedup.mpr ha
    have hb' := List.mem_dedup.mpr hb
    rcases hd : l.dedup with _ | ⟨x, t⟩
    · rw [hd] at ha'
      simp at ha'
    · rw [hd] at h ha' hb'
      cases t with
      | nil =>
        simp only [List.mem_singleton] at ha' hb'
        rw [ha', hb']
      | cons y u => simp at h
  · intro h
    by_contra hc
    push_neg at hc
    rcases hd : l.dedup with _ | ⟨x, t⟩
    · rw [hd] at hc
      simp at hc
    · cases t with
      | nil =>
        rw [hd] at hc
        simp at hc
      | cons y u =>
        have hx : x ∈ l := List.mem_dedup.mp (hd ▸ List.mem_cons_self _ _)
        have hy : y ∈ l := List.mem_dedup.mp
          (hd ▸ List.mem_cons_of_mem _ (List.mem_cons_self _ _))
        have hnd := List.nodup_dedup l
        rw [hd, List.nodup_cons] at hnd
        exact hnd.1 (List.mem_cons.mpr (Or.inl (h x hx y hy)))

/-- C5: the correlation coefficient stays null exactly when fewer than
2 price points exist, all prices are identical, or every negative-news
count is zero; in every other case a coefficient is produced and its
value `num/√den2` lies in `[-1, 1]` (the NaN case of `np.corrcoef`,
zero denominator, is coerced to `0`); and the manual fallback leaves
the coefficient null when either centered-sum denominator is zero. -/
theorem correlation_coefficient_guards (prices : List ℚ)
    (neg_news_counts : List ℕ) :
    ((prices.length < 2 ∨ (∀ a ∈ prices, ∀ b ∈ prices, a = b) ∨
        (∀ n ∈ neg_news_counts, n = 0)) →
      correlationCoefficient prices neg_news_counts = none) ∧
    (¬(prices.length < 2 ∨ (∀ a ∈ prices, ∀ b ∈ prices, a = b) ∨
        (∀ n ∈ neg_news_counts, n = 0)) →
      ∃ c, correlationCoefficient prices neg_news_counts = some c) ∧
    (∀ c, correlationCoefficient prices neg_news_counts = some c →
      -1 ≤ (c.num : ℝ) / Real.sqrt (c.den2 : ℝ) ∧
        (c.num : ℝ) / Real.sqrt (c.den2 : ℝ) ≤ 1) ∧
    ((denomPrice prices = 0 ∨ denomNews neg_news_counts = 0) →
      fallbackPearson prices neg_news_counts = none) := by
  refine ⟨?_, ?_, ?_, ?_⟩
  · intro h
    unfold correlationCoefficient
    rcases h with hlen | hall | hzero
    · rw [if_neg (by omega)]
    · by_cases h2 : 2 ≤ prices.length
      · rw [if_pos h2, if_neg]
        intro hcond
        have := (dedup_length_le_one_iff prices).mpr hall
        omega
      · rw [if_neg h2]
    · by_cases h2 : 2 ≤ prices.length
      · rw [if_pos h2, if_neg]
        intro hcond
        rw [List.sum_eq_zero hzero] at hcond
        exact lt_irrefl 0 hcond.2
      · rw [if_neg h2]
  · intro h
    push_neg at h
    obtain ⟨h1, h2, h3⟩ := h
    unfold correlationCoefficient
    rw [if_pos (by omega)]
    have hded : 1 < prices.dedup.length := by
      by_contra hc
      push_neg at hc
      obtain ⟨a, ha, b, hb, hab⟩ := h2
      exact hab ((dedup_length_le_one_iff prices).mp hc a ha b hb)
    have hsum : 0 < neg_news_counts.sum := by
      rcases Nat.eq_zero_or_pos neg_news_counts.sum with hz | hp
      · obtain ⟨n, hn, hne⟩ := h3
        exact absurd (List.sum_eq_zero_iff.mp hz n hn) hne
      · exact hp
    rw [if_pos ⟨hded, hsum⟩]
    split_ifs with hd
    · exact ⟨_, rfl⟩
    · exact ⟨_, rfl⟩
  · intro c hc
    unfold correlationCoefficient at hc
    split_ifs at hc with h2 hcond hd
    · obtain rfl := Option.some.inj hc.symm
      have h1 : ((0:ℚ) : ℝ) = (0:ℝ) := by norm_num
      constructor
      · rw [show (({ num := 0, den2 := 1 } : CorrVal).num : ℝ) = (0:ℝ) by norm_num,
          show (({ num := 0, den2 := 1 } : CorrVal).den2 : ℝ) = (1:ℝ) by norm_num,
          Real.sqrt_one]
        norm_num
      · rw [show (({ num := 0, den2 := 1 } : CorrVal).num : ℝ) = (0:ℝ) by norm_num,
          show (({ num := 0, den2 := 1 } : CorrVal).den2 : ℝ) = (1:ℝ) by norm_num,
          Real.sqrt_one]
        norm_num
    · obtain rfl := Option.some.inj hc.symm
      push_neg at hd
      have hp : 0 < denomPrice prices :=
        lt_of_le_of_ne (denomPrice_nonneg prices) (Ne.symm hd.1)
      have hn : 0 < denomNews neg_news_counts :=
        lt_of_le_of_ne (denomNews_nonneg neg_news_counts) (Ne.symm hd.2)
      exact corrVal_bounds (mul_pos hp hn)
        (corrNumerator_sq_le prices neg_news_counts)
  · intro h
    unfold fallbackPearson
    split_ifs with hlen hden
    · rcases h with h | h
      · rw [h] at hden
        exact absurd hden.1 (lt_irrefl 0)
      · rw [h] at hden
        exact absurd hden.2 (lt_irrefl 0)
    · rfl
    · rfl

/-- Witness for C5: the pair `prices = [3,4]`, `counts = [1,1]` passes
every guard, hits the NaN case (zero news variance) and is coerced to
the in-range value 0; the degenerate inputs stay null. -/
theorem correlation_coefficient_guards_witness :
    correlationCoefficient [3, 4] [1, 1] = some { num := 0, den2 := 1 } ∧
    (-1 : ℝ) ≤ (((0:ℚ) : ℝ) / Real.sqrt ((1:ℚ) : ℝ)) ∧
    (((0:ℚ) : ℝ) / Real.sqrt ((1:ℚ) : ℝ)) ≤ 1 ∧
    correlationCoefficient [] [] = none ∧
    fallbackPearson [3, 3] [0, 1] = none := by
  have hdedup : ([3, 4] : List ℚ).dedup = [3, 4] := by
    rw [List.dedup_cons_of_not_mem (by norm_num),
      List.dedup_cons_of_not_mem (by norm_num), List.dedup_nil]
  have hdn : denomNews [1, 1] = 0 := by
    unfold denomNews listMean
    norm_num
  have hcc : correlationCoefficient [3, 4] [1, 1] =
      some { num := 0, den2 := 1 } := by
    unfold correlationCoefficient
    rw [if_pos (by norm_num), if_pos ⟨by rw [hdedup]; norm_num, by norm_num⟩,
      if_pos (Or.inr hdn)]
  have hb := (correlation_coefficient_guards [3, 4] [1, 1]).2.2.1
    { num := 0, den2 := 1 } hcc
  have hdp : denomPrice [3, 3] = 0 := by
    unfold denomPrice listMean
    norm_num
  refine ⟨hcc, hb.1, hb.2, ?_, ?_⟩
  · exact (correlation_coefficient_guards [] []).1 (Or.inl (by norm_num))
  · exact (correlation_coefficient_guards [3, 3] [0, 1]).2.2.2 (Or.inl hdp)

end MarketAnalyzer
